import Mathlib

/- Shallow embedding of `src/device.rs` (Alkomp).

Rust `HashMap`s are modelled as association lists kept in insertion order,
with `hmInsert` preserving key distinctness (replace-or-append), `hmGet`
modelling `HashMap::get` / indexing, and `List.length` modelling `len()`.
Wherever the source iterates a `HashMap` (`values()`, `for (k, v) in &map`),
the iteration order is unspecified in Rust; the embedding takes that order
as an explicit argument, constrained in theorems to be a permutation of the
map's entries.

Byte buffers are `List Nat`.  The external wgpu primitives (buffer creation,
buffer-to-buffer copies, shader-module and pipeline creation, memory
mapping) are modelled per the spec's collaborator descriptions: buffer
creation with initial contents yields a region holding exactly those bytes;
fallible device primitives are an oracle, and their failures surface as
panics (wgpu's uncaptured-error handler), modelled by explicit panic
constructors in the result types. -/

def hmKeys {β : Type} (m : List (Nat × β)) : List Nat := m.map Prod.fst

def hmContains {β : Type} : List (Nat × β) → Nat → Bool
  | [], _ => false
  | p :: m, k => if p.1 = k then true else hmContains m k

def hmGet {β : Type} : List (Nat × β) → Nat → Option β
  | [], _ => none
  | p :: m, k => if p.1 = k then some p.2 else hmGet m k

def hmInsert {β : Type} (m : List (Nat × β)) (k : Nat) (v : β) : List (Nat × β) :=
  if hmContains m k then m.map (fun p => if p.1 = k then (k, v) else p) else m ++ [(k, v)]

/-- `slice::chunks_exact`: successive sub-lists of length `k`, remainder dropped. -/
def chunksExact {β : Type} (k : Nat) (l : List β) : List (List β) :=
  if _h : 0 < k ∧ k ≤ l.length then
    l.take k :: chunksExact k (l.drop k)
  else []
termination_by l.length
decreasing_by simp only [List.length_drop]; omega

/-- A fixed-layout (`bytemuck::Pod`) element type: a byte width, an encoding of
each element into exactly that many bytes, and a decoding inverting it. -/
structure Pod (α : Type) where
  size : Nat
  toBytes : α → List Nat
  fromBytes : List Nat → α
  toBytes_length : ∀ a, (toBytes a).length = size
  from_to : ∀ a, fromBytes (toBytes a) = a

/-- `GPUData<[T]>`: staging (host-mappable) and storage (device-local) byte
contents plus the recorded byte size. -/
structure GPUData where
  staging_buffer : List Nat
  storage_buffer : List Nat
  size : Nat
deriving DecidableEq

inductive ShaderStage where
  | COMPUTE
deriving DecidableEq

inductive BufferBindingType where
  | Storage (read_only : Bool)
deriving DecidableEq

inductive BindingType where
  | Buffer (ty : BufferBindingType) (has_dynamic_offset : Bool) (min_binding_size : Option Nat)
deriving DecidableEq

structure BindGroupLayoutEntry where
  binding : Nat
  visibility : ShaderStage
  ty : BindingType
  count : Option Nat
deriving DecidableEq

/-- `wgpu::BindGroupEntry`: binding index plus the bound resource
(`storage_buffer.as_entire_binding()`, modelled by the buffer's bytes). -/
structure BindGroupEntry where
  binding : Nat
  resource : List Nat
deriving DecidableEq

structure BindGroupLayout where
  entries : List BindGroupLayoutEntry
deriving DecidableEq

structure ShaderModuleDescriptor where
  source : List Nat
deriving DecidableEq

structure ShaderModule where
  descriptor : ShaderModuleDescriptor
deriving DecidableEq

structure ComputePipeline where
  layout_sets : List BindGroupLayout
  module : ShaderModule
  entry_point : String
deriving DecidableEq

structure GPUCompute where
  bind_group_layouts : List (Nat × BindGroupLayout)
  compute_pipeline : ComputePipeline
deriving DecidableEq

structure GPUSetGroupLayout where
  set_bind_group_layouts : List (Nat × List (Nat × (BindGroupLayoutEntry × String)))
deriving DecidableEq

structure BindGroup where
  layout : BindGroupLayout
  entries : List BindGroupEntry
deriving DecidableEq

structure DispatchRecord where
  pipeline : ComputePipeline
  set_bind_groups : List (Nat × BindGroup)
  workspace : Nat × Nat × Nat
deriving DecidableEq

/-- Behaviour of the external device primitives used by `compile`: shader
validation, the entry points of a compiled module, and pipeline acceptance. -/
structure DeviceOracle where
  shaderValid : ShaderModuleDescriptor → Bool
  entryPoints : ShaderModuleDescriptor → List String
  pipelineAccepted : List BindGroupLayout → ShaderModule → String → Bool

/-- Outcome of `Device::compile`: a panic raised inside a device primitive,
`Ok(GPUCompute)`, or the declared `Err(())`. -/
inductive CompileResult where
  | panic (msg : String)
  | ok (c : GPUCompute)
  | err
deriving DecidableEq

inductive CallResult where
  | panic (msg : String)
  | ok (record : DispatchRecord)
deriving DecidableEq

def CompileResult.isPanic : CompileResult → Bool
  | CompileResult.panic _ => true
  | _ => false

def CompileResult.isOkPipeline : CompileResult → Bool
  | CompileResult.ok _ => true
  | _ => false

def CompileResult.isErrUnit : CompileResult → Bool
  | CompileResult.err => true
  | _ => false

def CallResult.isPanic : CallResult → Bool
  | CallResult.panic _ => true
  | _ => false

def exceptIsOk {ε α : Type} : Except ε α → Bool
  | Except.ok _ => true
  | Except.error _ => false

/-- `load_shader`'s magic word check constant. -/
def MAGIC_NUMBER : Nat := 0x07230203

/-- Little-endian 32-bit word from a 4-byte chunk (`bytes.align_to::<u32>()`,
assuming a word-aligned allocation so the prefix is empty). -/
def leWord (b : List Nat) : Nat :=
  match b with
  | [b0, b1, b2, b3] => b0 + 256 * b1 + 65536 * b2 + 16777216 * b3
  | _ => 0

def bytesToWords (bytes : List Nat) : List Nat := (chunksExact 4 bytes).map leWord

/-- `load_shader`, applied to the bytes read from the file.  Indexing
`words[0]` on an empty word list panics; `assert_eq!` against the magic
number panics with the "wrong magic word" message. -/
def load_shader (bytes : List Nat) : Except String (List Nat) :=
  let words := bytesToWords bytes
  match words.head? with
  | none => Except.error "index out of bounds"
  | some w0 =>
    if w0 = MAGIC_NUMBER then Except.ok words
    else Except.error "wrong magic word. Make sure you are using a binary SPIRV file."

/-- `bytemuck::cast_slice`: the concatenated byte encodings of the elements. -/
def castSlice {α : Type} (P : Pod α) (data : List α) : List Nat :=
  (data.map P.toBytes).flatten

/-- `copy_buffer_to_buffer(src, 0, dst, 0, size)` as it lands in `dst`. -/
def copyBufferToBuffer (src dst : List Nat) (size : Nat) : List Nat :=
  src.take size ++ dst.drop size

/-- `Device::to_device` (native path): staging created with the cast bytes as
contents, storage created at the same byte size (zero-initialised), then one
staging-to-storage copy of `bytes.len()` bytes submitted on the queue. -/
def Device.to_device {α : Type} (P : Pod α) (data : List α) : GPUData :=
  let bytes := castSlice P data
  let staging_buffer := bytes
  let storage_buffer := copyBufferToBuffer staging_buffer (List.replicate bytes.length 0) bytes.length
  { staging_buffer := staging_buffer, storage_buffer := storage_buffer, size := bytes.length }

/-- The staging contents mapped by `Device::get`: the submitted
storage-to-staging copy of `gpu.size` bytes, then `slice(0..)` of staging. -/
def readbackBytes (gpu : GPUData) : List Nat :=
  copyBufferToBuffer gpu.storage_buffer gpu.staging_buffer gpu.size

/-- `Device::get`: submit the copy, request the mapping (`mapOk` is the
resolution of the `map_async` future), and on success reinterpret the mapped
bytes with `chunks_exact(size_of::<T>())`. -/
def Device.get {α : Type} (P : Pod α) (gpu : GPUData) (mapOk : Bool) : Option (List α) :=
  let staging := readbackBytes gpu
  if mapOk then some ((chunksExact P.size staging).map P.fromBytes) else none

/-- The `BindGroupLayoutEntry` built by `ParamsBuilder::param`. -/
def newBindingLayout (idx : Nat) : BindGroupLayoutEntry :=
  { binding := idx
    visibility := ShaderStage.COMPUTE
    ty := BindingType.Buffer (BufferBindingType.Storage false) false none
    count := none }

structure ParamsBuilder where
  binding_layouts : List (Nat × (BindGroupLayoutEntry × String))
  binding_entry : List (Nat × BindGroupEntry)
deriving DecidableEq

def ParamsBuilder.new : ParamsBuilder :=
  { binding_layouts := [], binding_entry := [] }

/-- `ParamsBuilder::param::<T>`: the next index is the current map size; a
layout entry is always inserted, a bind-group entry only when a buffer is
supplied.  `typeName` stands for `core::any::type_name::<T>()`. -/
def ParamsBuilder.param (self : ParamsBuilder) (typeName : String)
    (gpu_data : Option GPUData) : ParamsBuilder :=
  let new_binding_layout_idx := self.binding_layouts.length
  { binding_layouts :=
      hmInsert self.binding_layouts new_binding_layout_idx
        (newBindingLayout new_binding_layout_idx, typeName)
    binding_entry :=
      match gpu_data with
      | some gpu =>
          hmInsert self.binding_entry new_binding_layout_idx
            { binding := new_binding_layout_idx, resource := gpu.storage_buffer }
      | none => self.binding_entry }

/-- `ParamsBuilder::build`: wrap the accumulated layouts under the given set
id (default 0) and return the binding-entry map alongside. -/
def ParamsBuilder.build (self : ParamsBuilder) (set : Option Nat) :
    GPUSetGroupLayout × List (Nat × BindGroupEntry) :=
  ({ set_bind_group_layouts :=
      hmInsert [] (match set with | some s => s | none => 0) self.binding_layouts },
   self.binding_entry)

/-- A sequence of `param` calls on a fresh builder. -/
def runParams (calls : List (String × Option GPUData)) : ParamsBuilder :=
  calls.foldl (fun b c => b.param c.1 c.2) ParamsBuilder.new

/-- The `bind_group_layouts` map built by the first loop of `Device::compile`,
given the iteration order of `params.set_bind_group_layouts` (outer) with each
set's entries in its `values()` order (inner lists). -/
def compileBindGroupLayouts
    (paramsIter : List (Nat × List (Nat × (BindGroupLayoutEntry × String)))) :
    List (Nat × BindGroupLayout) :=
  paramsIter.foldl
    (fun m p => hmInsert m p.1 { entries := p.2.map (fun b => b.2.1) }) []

/-- The slice passed to `create_pipeline_layout`: `bind_group_layouts.values()`
in the iteration order `valuesOrder` (a sequence of keys). -/
def compilePipelineLayout (bgls : List (Nat × BindGroupLayout)) (valuesOrder : List Nat) :
    List BindGroupLayout :=
  valuesOrder.filterMap (fun s => hmGet bgls s)

def create_shader_module (o : DeviceOracle) (d : ShaderModuleDescriptor) :
    Except String ShaderModule :=
  if o.shaderValid d then Except.ok { descriptor := d }
  else Except.error "shader module validation failed"

def create_compute_pipeline (o : DeviceOracle) (layout : List BindGroupLayout)
    (m : ShaderModule) (entry : String) : Except String ComputePipeline :=
  if (o.entryPoints m.descriptor).contains entry then
    if o.pipelineAccepted layout m entry then
      Except.ok { layout_sets := layout, module := m, entry_point := entry }
    else Except.error "compute pipeline creation failed"
  else Except.error "entry point not found"

/-- `Device::compile`: build the per-set binding layouts, create the shader
module, the pipeline layout (values in `valuesOrder`), and the pipeline.
A failing primitive panics; the only returned values are `Ok(GPUCompute)`. -/
def Device.compile (o : DeviceOracle) (entry : String) (shader : ShaderModuleDescriptor)
    (paramsIter : List (Nat × List (Nat × (BindGroupLayoutEntry × String))))
    (valuesOrder : List Nat) : CompileResult :=
  let bind_group_layouts := compileBindGroupLayouts paramsIter
  match create_shader_module o shader with
  | Except.error msg => CompileResult.panic msg
  | Except.ok cs_module =>
    match create_compute_pipeline o (compilePipelineLayout bind_group_layouts valuesOrder)
        cs_module entry with
    | Except.error msg => CompileResult.panic msg
    | Except.ok pipeline =>
        CompileResult.ok { bind_group_layouts := bind_group_layouts, compute_pipeline := pipeline }

/-- Whether some step of `compile` (shader validation, entry-point lookup, or
pipeline creation) fails for these inputs. -/
def compileStepFails (o : DeviceOracle) (entry : String) (shader : ShaderModuleDescriptor)
    (paramsIter : List (Nat × List (Nat × (BindGroupLayoutEntry × String))))
    (valuesOrder : List Nat) : Bool :=
  !o.shaderValid shader ||
  !((o.entryPoints shader).contains entry) ||
  !o.pipelineAccepted (compilePipelineLayout (compileBindGroupLayouts paramsIter) valuesOrder)
      { descriptor := shader } entry

/-- The bind-group entry slice built in `Device::call`: `args.values()` in the
iteration order `argsIter`. -/
def callBindGroupEntries (argsIter : List (Nat × BindGroupEntry)) : List BindGroupEntry :=
  argsIter.map Prod.snd

/-- The `set_bind_group` loop of `Device::call`: for each map entry `(s, _)`
in iteration order, index `bind_groups[s]`; out-of-bounds indexing panics
(`none`). -/
def setBindGroupsLoop (bind_groups : List BindGroup) :
    List (Nat × BindGroupLayout) → Option (List (Nat × BindGroup))
  | [] => some []
  | p :: rest =>
    match bind_groups[p.1]? with
    | none => none
    | some g => (setBindGroupsLoop bind_groups rest).map (fun t => (p.1, g) :: t)

/-- `Device::call`: look up the layout for the hardcoded `set_num = 0`
(panicking if absent), build the single bind group from `args.values()` in
order `argsIter`, then run the `set_bind_group` loop over
`bind_group_layouts` in iteration order `loopIter`. -/
def Device.call (gpu_compute : GPUCompute) (workspace : Nat × Nat × Nat)
    (argsIter : List (Nat × BindGroupEntry))
    (loopIter : List (Nat × BindGroupLayout)) : CallResult :=
  match hmGet gpu_compute.bind_group_layouts 0 with
  | none => CallResult.panic "no entry found for key 0"
  | some layout0 =>
    let bind_groups : List BindGroup :=
      [{ layout := layout0, entries := callBindGroupEntries argsIter }]
    match setBindGroupsLoop bind_groups loopIter with
    | none => CallResult.panic "index out of bounds"
    | some sbg =>
        CallResult.ok
          { pipeline := gpu_compute.compute_pipeline, set_bind_groups := sbg
            workspace := workspace }

def insertAsc (x : Nat) : List Nat → List Nat
  | [] => [x]
  | y :: ys => if x ≤ y then x :: y :: ys else y :: insertAsc x ys

def sortAsc (l : List Nat) : List Nat := l.foldr insertAsc []

/-- Modelled from the spec (§4.3): the pipeline layout the spec requires —
the per-set binding-layout objects listed in ascending set id. -/
def ascendingSetOrderSpec (bgls : List (Nat × BindGroupLayout)) : List BindGroupLayout :=
  (sortAsc (hmKeys bgls)).filterMap (fun s => hmGet bgls s)

def trivialOracle : DeviceOracle :=
  { shaderValid := fun _ => true
    entryPoints := fun _ => ["main"]
    pipelineAccepted := fun _ _ _ => true }

def badOracle : DeviceOracle :=
  { shaderValid := fun _ => false
    entryPoints := fun _ => []
    pipelineAccepted := fun _ _ _ => false }

def demoShader : ShaderModuleDescriptor := { source := [] }

def innerMapDemo : List (Nat × (BindGroupLayoutEntry × String)) :=
  [(0, (newBindingLayout 0, "t")), (1, (newBindingLayout 1, "t"))]

def innerIterDemo : List (Nat × (BindGroupLayoutEntry × String)) :=
  [(1, (newBindingLayout 1, "t")), (0, (newBindingLayout 0, "t"))]

def argsIterDemo : List (Nat × BindGroupEntry) :=
  [(0, { binding := 0, resource := [] }), (1, { binding := 1, resource := [] })]

def demoMultiSetIter : List (Nat × List (Nat × (BindGroupLayoutEntry × String))) :=
  [(0, [(0, (newBindingLayout 0, "t"))]), (1, [])]

def demoPipeline : ComputePipeline :=
  { layout_sets := [], module := { descriptor := demoShader }, entry_point := "main" }

def demoGC : GPUCompute :=
  { bind_group_layouts := [(0, { entries := [] }), (1, { entries := [] })]
    compute_pipeline := demoPipeline }

def demoBuf : GPUData :=
  { staging_buffer := [1, 2, 3, 4], storage_buffer := [1, 2, 3, 4], size := 4 }

def demoCalls : List (String × Option GPUData) := [("u32", some demoBuf), ("f32", none)]

/-- A concrete 1-byte Pod instance used by witnesses. -/
def podU8 : Pod (Fin 256) :=
  { size := 1
    toBytes := fun b => [b.val]
    fromBytes := fun l => Fin.mk (l.headD 0 % 256) (Nat.mod_lt _ (by decide))
    toBytes_length := fun _ => rfl
    from_to := fun a => by
      apply Fin.ext
      simp [Nat.mod_eq_of_lt a.isLt] }

/- Helper lemmas on the HashMap model. -/

theorem hmContains_false_of_not_mem {β : Type} (m : List (Nat × β)) (k : Nat)
    (h : k ∉ hmKeys m) : hmContains m k = false := by
  induction m with
  | nil => rfl
  | cons p m ih =>
    simp only [hmKeys, List.map_cons, List.mem_cons, not_or] at h
    simp only [hmContains]
    rw [if_neg (fun he => h.1 (he.symm))]
    exact ih (by simpa [hmKeys] using h.2)

theorem hmInsert_not_mem {β : Type} (m : List (Nat × β)) (k : Nat) (v : β)
    (h : k ∉ hmKeys m) : hmInsert m k v = m ++ [(k, v)] := by
  unfold hmInsert
  rw [hmContains_false_of_not_mem m k h]
  rfl

theorem hmGet_of_not_mem {β : Type} (m : List (Nat × β)) (k : Nat)
    (h : k ∉ hmKeys m) : hmGet m k = none := by
  induction m with
  | nil => rfl
  | cons p m ih =>
    simp only [hmKeys, List.map_cons, List.mem_cons, not_or] at h
    simp only [hmGet]
    rw [if_neg (fun he => h.1 (he.symm))]
    exact ih (by simpa [hmKeys] using h.2)

theorem hmGet_append_single_self {β : Type} (m : List (Nat × β)) (k : Nat) (v : β)
    (h : k ∉ hmKeys m) : hmGet (m ++ [(k, v)]) k = some v := by
  induction m with
  | nil => simp [hmGet]
  | cons p m ih =>
    simp only [hmKeys, List.map_cons, List.mem_cons, not_or] at h
    simp only [List.cons_append, hmGet]
    rw [if_neg (fun he => h.1 (he.symm))]
    exact ih (by simpa [hmKeys] using h.2)

theorem hmGet_append_single_ne {β : Type} (m : List (Nat × β)) (k : Nat) (v : β)
    (i : Nat) (h : i ≠ k) : hmGet (m ++ [(k, v)]) i = hmGet m i := by
  induction m with
  | nil =>
    simp only [List.nil_append, hmGet]
    rw [if_neg (fun he => h (he.symm))]
  | cons p m ih =>
    simp only [List.cons_append, hmGet]
    by_cases hp : p.1 = i
    · rw [if_pos hp, if_pos hp]
    · rw [if_neg hp, if_neg hp]
      exact ih

/- Helper lemmas on chunksExact. -/

theorem chunksExact_nil {β : Type} (k : Nat) : chunksExact k ([] : List β) = [] := by
  unfold chunksExact
  rw [dif_neg]
  simp only [List.length_nil]
  omega

theorem chunksExact_cons_of_le {β : Type} (k : Nat) (l : List β)
    (hk : 0 < k) (hl : k ≤ l.length) :
    chunksExact k l = l.take k :: chunksExact k (l.drop k) := by
  rw [chunksExact]
  rw [dif_pos ⟨hk, hl⟩]

theorem chunksExact_of_lt {β : Type} (k : Nat) (l : List β) (h : l.length < k) :
    chunksExact k l = [] := by
  rw [chunksExact]
  rw [dif_neg]
  omega

theorem chunksExact_flatten {β : Type} (k : Nat) (hk : 0 < k) :
    ∀ L : List (List β), (∀ l ∈ L, l.length = k) → chunksExact k L.flatten = L := by
  intro L
  induction L with
  | nil => intro _; simpa using chunksExact_nil k
  | cons a L ih =>
    intro hmem
    have ha : a.length = k := hmem a (List.mem_cons_self a L)
    have hlen : k ≤ (a ++ L.flatten).length := by
      simp [List.length_append]
      omega
    rw [List.flatten_cons, chunksExact_cons_of_le k _ hk hlen]
    have htake : (a ++ L.flatten).take k = a := by
      rw [← ha, List.take_left]
    have hdrop : (a ++ L.flatten).drop k = L.flatten := by
      rw [← ha, List.drop_left]
    rw [htake, hdrop]
    rw [ih (fun l hl => hmem l (List.mem_cons_of_mem a hl))]

theorem chunksExact_length_aux {β : Type} (k : Nat) (hk : 0 < k) :
    ∀ (n : Nat) (l : List β), l.length ≤ n → (chunksExact k l).length = l.length / k := by
  intro n
  induction n with
  | zero =>
    intro l hl
    have : l = [] := List.eq_nil_of_length_eq_zero (Nat.le_zero.mp hl)
    subst this
    simp [chunksExact_nil]
  | succ n ih =>
    intro l hl
    by_cases hkl : k ≤ l.length
    · rw [chunksExact_cons_of_le k l hk hkl]
      simp only [List.length_cons]
      rw [ih (l.drop k) (by simp only [List.length_drop]; omega)]
      simp only [List.length_drop]
      exact (Nat.div_eq_sub_div hk hkl).symm
    · rw [chunksExact_of_lt k l (by omega)]
      have h0 : l.length / k = 0 := Nat.div_eq_of_lt (by omega)
      simp [h0]

theorem chunksExact_length {β : Type} (k : Nat) (hk : 0 < k) (l : List β) :
    (chunksExact k l).length = l.length / k :=
  chunksExact_length_aux k hk l.length l (Nat.le_refl _)

theorem chunksExact_getElem_aux {β : Type} (k : Nat) (hk : 0 < k) :
    ∀ (n : Nat) (l : List β), l.length ≤ n → ∀ i, i < (chunksExact k l).length →
      (chunksExact k l)[i]? = some ((l.drop (i * k)).take k) := by
  intro n
  induction n with
  | zero =>
    intro l hl i hi
    have : l = [] := List.eq_nil_of_length_eq_zero (Nat.le_zero.mp hl)
    subst this
    rw [chunksExact_nil] at hi
    simp at hi
  | succ n ih =>
    intro l hl i hi
    by_cases hkl : k ≤ l.length
    · rw [chunksExact_cons_of_le k l hk hkl] at hi ⊢
      cases i with
      | zero => simp
      | succ i =>
        rw [List.getElem?_cons_succ]
        have hdl : (l.drop k).length ≤ n := by
          simp only [List.length_drop]
          omega
        rw [ih (l.drop k) hdl i (by simpa using hi)]
        rw [List.drop_drop]
        have harith : k + i * k = (i + 1) * k := by
          rw [Nat.succ_mul]
          exact Nat.add_comm k (i * k)
        rw [harith]
    · rw [chunksExact_of_lt k l (by omega)] at hi
      simp at hi

theorem chunksExact_getElem {β : Type} (k : Nat) (hk : 0 < k) (l : List β)
    (i : Nat) (hi : i < (chunksExact k l).length) :
    (chunksExact k l)[i]? = some ((l.drop (i * k)).take k) :=
  chunksExact_getElem_aux k hk l.length l (Nat.le_refl _) i hi

/- The staging buffer read back by `get` after `to_device` holds exactly the
uploaded bytes: the storage buffer's length equals the byte length, so the
two submitted copies are full-buffer copies. -/
theorem readbackBytes_to_device {α : Type} (P : Pod α) (data : List α) :
    readbackBytes (Device.to_device P data) = castSlice P data := by
  unfold Device.to_device readbackBytes copyBufferToBuffer
  simp [List.take_length, List.drop_length]

/-- Claim C2: for every non-empty sequence of a fixed-layout element type,
reading back (`get`, with the mapping resolving successfully) the buffer
returned by `to_device`, with no intervening dispatch, yields the input
sequence element-for-element. -/
theorem to_device_get_roundtrip {α : Type} (P : Pod α) (data : List α)
    (hne : data ≠ []) (hs : 0 < P.size) :
    Device.get P (Device.to_device P data) true = some data := by
  have hbytes : ∀ l ∈ data.map P.toBytes, l.length = P.size := by
    intro l hl
    rcases List.mem_map.mp hl with ⟨a, _, rfl⟩
    exact P.toBytes_length a
  have h1 := readbackBytes_to_device P data
  unfold Device.get
  rw [if_pos rfl, h1]
  unfold castSlice
  rw [chunksExact_flatten P.size hs (data.map P.toBytes) hbytes]
  rw [List.map_map]
  have hcomp : (P.fromBytes ∘ P.toBytes) = id := funext P.from_to
  rw [hcomp, List.map_id]

/-- Claim C2 witness: a concrete round trip of three one-byte elements. -/
theorem to_device_get_roundtrip_witness :
    Device.get podU8 (Device.to_device podU8 [(1 : Fin 256), 2, 3]) true = some [1, 2, 3] :=
  to_device_get_roundtrip podU8 [1, 2, 3] (by decide) (by decide)

/-- Claim C6: if the asynchronous mapping request on the staging buffer is
rejected or cancelled, `get` returns `none` rather than raising an error; if
it resolves successfully, `get` returns the mapped bytes reinterpreted as a
sequence of `T` in exact chunk-by-chunk order. -/
theorem get_mapping_result {α : Type} (P : Pod α) (gpu : GPUData) (hs : 0 < P.size) :
    Device.get P gpu false = none ∧
    ∀ out, Device.get P gpu true = some out →
      out.length = (readbackBytes gpu).length / P.size ∧
      ∀ i, i < out.length →
        out[i]? = some (P.fromBytes (((readbackBytes gpu).drop (i * P.size)).take P.size)) := by
  constructor
  · simp [Device.get]
  · intro out hout
    simp only [Device.get, if_pos, Option.some.injEq] at hout
    subst hout
    constructor
    · rw [List.length_map]
      exact chunksExact_length P.size hs _
    · intro i hi
      rw [List.getElem?_map]
      rw [List.length_map] at hi
      rw [chunksExact_getElem P.size hs (readbackBytes gpu) i hi]
      rfl

/-- Claim C6 witness: the mapping-failure branch at a concrete buffer. -/
theorem get_mapping_result_witness :
    Device.get podU8 demoBuf false = none :=
  (get_mapping_result podU8 demoBuf (by decide)).1

/-- Claim C7: `build` on a builder with zero `param` calls does not fail: it
returns a layout holding exactly one set (the given set id, or 0 when
unspecified) with zero bindings, and an empty binding-entry map. -/
theorem build_empty_builder (s : Option Nat) :
    ParamsBuilder.new.build s =
      ({ set_bind_group_layouts := [(s.getD 0, [])] }, []) := by
  cases s <;> rfl

/-- Claim C8: uploading an empty sequence succeeds with a zero-size buffer,
and reading it back returns an empty sequence rather than an error. -/
theorem to_device_empty {α : Type} (P : Pod α) (hs : 0 < P.size) :
    (Device.to_device P ([] : List α)).size = 0 ∧
    Device.get P (Device.to_device P ([] : List α)) true = some [] := by
  constructor
  · rfl
  · have h1 := readbackBytes_to_device P ([] : List α)
    simp [Device.get, h1, castSlice, chunksExact_nil]

/-- Claim C8 witness: the empty upload at a concrete element type. -/
theorem to_device_empty_witness :
    (Device.to_device podU8 ([] : List (Fin 256))).size = 0 ∧
    Device.get podU8 (Device.to_device podU8 ([] : List (Fin 256))) true = some [] :=
  to_device_empty podU8 (by decide)

/-- Claim C10: `load_shader` succeeds and returns the file contents as a
32-bit word stream exactly when the first 32-bit word equals the magic number
0x07230203; otherwise the call aborts before treating the contents as an
instruction stream. -/
theorem load_shader_magic (bytes : List Nat) :
    (load_shader bytes = Except.ok (bytesToWords bytes) ↔
      4 ≤ bytes.length ∧ leWord (bytes.take 4) = MAGIC_NUMBER) ∧
    (exceptIsOk (load_shader bytes) = true ↔
      4 ≤ bytes.length ∧ leWord (bytes.take 4) = MAGIC_NUMBER) := by
  have hhead : (bytesToWords bytes).head? =
      if 4 ≤ bytes.length then some (leWord (bytes.take 4)) else none := by
    unfold bytesToWords
    by_cases h : 4 ≤ bytes.length
    · rw [chunksExact_cons_of_le 4 bytes (by decide) h]
      simp [h]
    · rw [chunksExact_of_lt 4 bytes (by omega)]
      simp [h]
  by_cases h4 : 4 ≤ bytes.length
  · by_cases hm : leWord (bytes.take 4) = MAGIC_NUMBER <;>
      simp [load_shader, hhead, h4, hm, exceptIsOk]
  · simp [load_shader, hhead, h4, exceptIsOk]

/-- Claim C3 counterexample: at a concrete input where the shader is rejected,
a step of `compile` fails, yet `compile` does not return the declared failure
result `Err(())` — the failing device primitive panics instead. -/
theorem compile_fail_not_err :
    compileStepFails badOracle "main" demoShader [] [] = true ∧
    (Device.compile badOracle "main" demoShader [] []).isErrUnit = false ∧
    (Device.compile badOracle "main" demoShader [] []).isPanic = true := by
  decide

/-- Claim C3 (amended): whenever any step of `compile` fails (shader rejected,
entry point absent, or pipeline rejected), the call aborts with a panic and
never returns a successfully-constructed `GPUCompute`; the declared `Err(())`
failure result is never produced. -/
theorem compile_fail_aborts (o : DeviceOracle) (entry : String)
    (shader : ShaderModuleDescriptor)
    (paramsIter : List (Nat × List (Nat × (BindGroupLayoutEntry × String))))
    (valuesOrder : List Nat) :
    (compileStepFails o entry shader paramsIter valuesOrder = true →
      (Device.compile o entry shader paramsIter valuesOrder).isPanic = true ∧
      (Device.compile o entry shader paramsIter valuesOrder).isOkPipeline = false) ∧
    (Device.compile o entry shader paramsIter valuesOrder).isErrUnit = false := by
  unfold Device.compile compileStepFails create_shader_module create_compute_pipeline
  cases hsv : o.shaderValid shader <;>
    by_cases hep : entry ∈ o.entryPoints shader <;>
      cases hpa : o.pipelineAccepted
          (compilePipelineLayout (compileBindGroupLayouts paramsIter) valuesOrder)
          { descriptor := shader } entry <;>
        simp [hsv, hep, hpa, CompileResult.isPanic, CompileResult.isOkPipeline,
          CompileResult.isErrUnit]

/-- Claim C3 witness: the amendment applied at the concrete failing input. -/
theorem compile_fail_aborts_witness :
    (Device.compile badOracle "main" demoShader [] []).isPanic = true ∧
    (Device.compile badOracle "main" demoShader [] []).isOkPipeline = false :=
  (compile_fail_aborts badOracle "main" demoShader [] []).1 (by decide)

/-- Claim C1: the binding maps for set 0 and the argument map hold the same
logical bindings {0, 1}, and both iteration orders below are permutations of
their maps (legitimate orders of Rust's unordered `HashMap`), yet the first
layout entry created by `compile` carries binding 1 while the first bind-group
entry created by `call` carries binding 0 — the Nth entries need not describe
the same logical binding. -/
theorem compile_call_entry_order_mismatch :
    innerIterDemo.Perm innerMapDemo ∧
    hmKeys innerMapDemo = [0, 1] ∧
    argsIterDemo.map Prod.fst = [0, 1] ∧
    (hmGet (compileBindGroupLayouts [(0, innerIterDemo)]) 0).map
        (fun bgl => bgl.entries.map BindGroupLayoutEntry.binding) = some [1, 0] ∧
    (callBindGroupEntries argsIterDemo).map BindGroupEntry.binding = [0, 1] := by
  refine ⟨List.Perm.swap _ _ _, ?_, ?_, ?_, ?_⟩ <;> decide

/-- Claim C5: with a layout holding sets 0 and 1, the iteration order [1, 0]
is a permutation of the map's keys (a legitimate order of Rust's unordered
`HashMap`), and `compile` then assembles the pipeline layout with set 1's
binding layout first — not in ascending set id as the spec requires. -/
theorem compile_pipeline_layout_not_ascending :
    ([1, 0] : List Nat).Perm (hmKeys (compileBindGroupLayouts demoMultiSetIter)) ∧
    Device.compile trivialOracle "main" demoShader demoMultiSetIter [1, 0] =
      CompileResult.ok
        { bind_group_layouts := compileBindGroupLayouts demoMultiSetIter
          compute_pipeline :=
            { layout_sets := compilePipelineLayout (compileBindGroupLayouts demoMultiSetIter) [1, 0]
              module := { descriptor := demoShader }
              entry_point := "main" } } ∧
    compilePipelineLayout (compileBindGroupLayouts demoMultiSetIter) [1, 0] ≠
      ascendingSetOrderSpec (compileBindGroupLayouts demoMultiSetIter) := by
  refine ⟨List.Perm.swap _ _ _, ?_, ?_⟩ <;> decide

/- The set_bind_group loop panics as soon as some map entry's set id indexes
past the end of the bind-group vector. -/
theorem setBindGroupsLoop_none (bind_groups : List BindGroup)
    (iter : List (Nat × BindGroupLayout)) (p : Nat × BindGroupLayout)
    (hp : p ∈ iter) (hge : bind_groups.length ≤ p.1) :
    setBindGroupsLoop bind_groups iter = none := by
  induction iter with
  | nil => cases hp
  | cons q rest ih =>
    rcases List.mem_cons.mp hp with h | h
    · subst h
      simp [setBindGroupsLoop, List.getElem?_eq_none hge]
    · cases hbg : bind_groups[q.1]? with
      | none => simp [setBindGroupsLoop, hbg]
      | some g => simp [setBindGroupsLoop, hbg, ih h]

/-- Claim C9: for every compiled pipeline whose layout map contains a set id
other than 0, `call` panics (it looks up bind-group layout key 0
unconditionally and indexes the one-element bind-group vector by set id),
whatever iteration order the for-loop sees. -/
theorem call_nonzero_set_panics (gc : GPUCompute) (ws : Nat × Nat × Nat)
    (argsIter : List (Nat × BindGroupEntry)) (loopIter : List (Nat × BindGroupLayout))
    (hperm : loopIter.Perm gc.bind_group_layouts)
    (hset : ∃ p ∈ gc.bind_group_layouts, p.1 ≠ 0) :
    (Device.call gc ws argsIter loopIter).isPanic = true := by
  obtain ⟨p, hpmem, hpne⟩ := hset
  cases h0 : hmGet gc.bind_group_layouts 0 with
  | none => simp [Device.call, h0, CallResult.isPanic]
  | some layout0 =>
    have hploop : p ∈ loopIter := hperm.mem_iff.mpr hpmem
    have hnone := setBindGroupsLoop_none
      [{ layout := layout0, entries := callBindGroupEntries argsIter }]
      loopIter p hploop (by simp; omega)
    simp [Device.call, h0, hnone, CallResult.isPanic]

/-- Claim C9 witness: a compiled pipeline with sets {0, 1} panics in `call`. -/
theorem call_nonzero_set_panics_witness :
    (Device.call demoGC (1, 1, 1) [] demoGC.bind_group_layouts).isPanic = true :=
  call_nonzero_set_panics demoGC (1, 1, 1) [] demoGC.bind_group_layouts
    (List.Perm.refl _) ⟨(1, { entries := [] }), by decide, by decide⟩

/- State invariant of a fresh builder after a sequence of `param` calls:
the layout keys are exactly 0..N-1 in insertion order, the entry keys stay
below N, and the i-th binding records the i-th call's type tag and optional
buffer. -/
theorem runParams_state (calls : List (String × Option GPUData)) :
    hmKeys (runParams calls).binding_layouts = List.range calls.length ∧
    (∀ j ∈ hmKeys (runParams calls).binding_entry, j < calls.length) ∧
    (∀ (i : Nat) (h : i < calls.length),
      hmGet (runParams calls).binding_layouts i =
        some (newBindingLayout i, (calls.get ⟨i, h⟩).1) ∧
      hmGet (runParams calls).binding_entry i =
        Option.map (fun g => { binding := i, resource := g.storage_buffer })
          (calls.get ⟨i, h⟩).2) := by
  induction calls using List.reverseRecOn with
  | nil =>
    refine ⟨rfl, ?_, ?_⟩
    · intro j hj
      simp [runParams, ParamsBuilder.new, hmKeys] at hj
    · intro i h
      exact absurd h (Nat.not_lt_zero i)
  | append_singleton calls c ih =>
    obtain ⟨ihk, ihe, ihget⟩ := ih
    have hrun : runParams (calls ++ [c]) = (runParams calls).param c.1 c.2 := by
      simp [runParams, List.foldl_append]
    have hN : (runParams calls).binding_layouts.length = calls.length := by
      have hk := congrArg List.length ihk
      simpa [hmKeys] using hk
    have hNotMem : calls.length ∉ hmKeys (runParams calls).binding_layouts := by
      rw [ihk]
      simp
    have hNotMemE : calls.length ∉ hmKeys (runParams calls).binding_entry := by
      intro hmem
      exact absurd (ihe _ hmem) (lt_irrefl _)
    have hbl : (runParams (calls ++ [c])).binding_layouts =
        (runParams calls).binding_layouts ++
          [(calls.length, (newBindingLayout calls.length, c.1))] := by
      rw [hrun]
      simp only [ParamsBuilder.param]
      rw [hN]
      exact hmInsert_not_mem _ _ _ hNotMem
    have hlen : (calls ++ [c]).length = calls.length + 1 := by simp
    have hget_left : ∀ (i : Nat) (hi : i < calls.length) (h2 : i < (calls ++ [c]).length),
        (calls ++ [c]).get ⟨i, h2⟩ = calls.get ⟨i, hi⟩ := by
      intro i hi h2
      rw [List.get_eq_getElem, List.get_eq_getElem]
      exact List.getElem_append_left hi
    have hget_last : ∀ (h2 : calls.length < (calls ++ [c]).length),
        (calls ++ [c]).get ⟨calls.length, h2⟩ = c := by
      intro h2
      rw [List.get_eq_getElem]
      exact List.getElem_concat_length calls c calls.length rfl h2
    have hkeys : hmKeys (runParams (calls ++ [c])).binding_layouts =
        List.range (calls ++ [c]).length := by
      rw [hbl]
      simp only [hmKeys, List.map_append, List.map_cons, List.map_nil, hlen]
      rw [show List.map Prod.fst (runParams calls).binding_layouts
            = List.range calls.length from ihk]
      rw [List.range_succ]
    have hgetL : ∀ (i : Nat) (h : i < (calls ++ [c]).length),
        hmGet (runParams (calls ++ [c])).binding_layouts i =
          some (newBindingLayout i, ((calls ++ [c]).get ⟨i, h⟩).1) := by
      intro i h
      by_cases hi : i < calls.length
      · rw [hbl, hmGet_append_single_ne _ _ _ _ (by omega)]
        rw [(ihget i hi).1, hget_left i hi h]
      · have hieq : i = calls.length := by
          rw [hlen] at h
          omega
        subst hieq
        rw [hbl, hmGet_append_single_self _ _ _ hNotMem, hget_last h]
    cases hc : c.2 with
    | none =>
      have hbe : (runParams (calls ++ [c])).binding_entry =
          (runParams calls).binding_entry := by
        rw [hrun]
        simp only [ParamsBuilder.param, hc]
      refine ⟨hkeys, ?_, ?_⟩
      · intro j hj
        rw [hbe] at hj
        have := ihe j hj
        omega
      · intro i h
        refine ⟨hgetL i h, ?_⟩
        rw [hbe]
        by_cases hi : i < calls.length
        · rw [(ihget i hi).2, hget_left i hi h]
        · have hieq : i = calls.length := by
            rw [hlen] at h
            omega
          subst hieq
          rw [hmGet_of_not_mem _ _ hNotMemE, hget_last h, hc]
          rfl
    | some g =>
      have hbe : (runParams (calls ++ [c])).binding_entry =
          (runParams calls).binding_entry ++
            [(calls.length,
              { binding := calls.length, resource := g.storage_buffer })] := by
        rw [hrun]
        simp only [ParamsBuilder.param, hc]
        rw [hN]
        exact hmInsert_not_mem _ _ _ hNotMemE
      refine ⟨hkeys, ?_, ?_⟩
      · intro j hj
        rw [hbe] at hj
        simp only [hmKeys, List.map_append, List.map_cons, List.map_nil,
          List.mem_append, List.mem_cons, List.not_mem_nil, or_false] at hj
        rcases hj with hj | hj
        · have := ihe j hj
          omega
        · omega
      · intro i h
        refine ⟨hgetL i h, ?_⟩
        rw [hbe]
        by_cases hi : i < calls.length
        · rw [hmGet_append_single_ne _ _ _ _ (by omega)]
          rw [(ihget i hi).2, hget_left i hi h]
        · have hieq : i = calls.length := by
            rw [hlen] at h
            omega
          subst hieq
          rw [hmGet_append_single_self _ _ _ hNotMemE, hget_last h, hc]
          rfl

/-- Claim C4: after N `param` calls on a fresh builder, `build` wraps the
accumulated map under the given set id; the binding indices are exactly
0..N-1 in call order (no index reused or reordered), the i-th layout entry's
`binding` field is i with the i-th call's type tag, and the binding-entry map
holds at index i exactly the buffer supplied by the (i+1)-th call, or nothing
when none was supplied. -/
theorem params_build_dense (calls : List (String × Option GPUData)) (s : Option Nat) :
    ((runParams calls).build s).1.set_bind_group_layouts =
      [(s.getD 0, (runParams calls).binding_layouts)] ∧
    ((runParams calls).build s).2 = (runParams calls).binding_entry ∧
    hmKeys (runParams calls).binding_layouts = List.range calls.length ∧
    (∀ (i : Nat) (h : i < calls.length),
      hmGet (runParams calls).binding_layouts i =
        some (newBindingLayout i, (calls.get ⟨i, h⟩).1) ∧
      hmGet ((runParams calls).build s).2 i =
        Option.map (fun g => { binding := i, resource := g.storage_buffer })
          (calls.get ⟨i, h⟩).2) := by
  obtain ⟨h1, _, h3⟩ := runParams_state calls
  refine ⟨?_, rfl, h1, h3⟩
  unfold ParamsBuilder.build
  cases s <;> rfl

/-- Claim C4 witness: two concrete `param` calls, the first with a buffer and
the second without. -/
theorem params_build_dense_witness :
    hmGet (runParams demoCalls).binding_layouts 0 =
      some (newBindingLayout 0, "u32") ∧
    hmGet ((runParams demoCalls).build (some 0)).2 1 = none := by
  have h := params_build_dense demoCalls (some 0)
  refine ⟨(h.2.2.2 0 (by decide)).1, ?_⟩
  have h2 := (h.2.2.2 1 (by decide)).2
  simpa using h2
